import Mathlib

/-!
Verification of the gohtmock mock registry and request-dispatch engine
(FortnoxAB/gohtmock, src/mock.go).  The Go code is embedded shallowly:
the registry and each mock entry become Lean structures, the HTTP
response writer becomes an explicit record of headers/status/body, and
`ServeHTTP` becomes a function from registry state and request to the
updated state, the produced response, and the log lines emitted while
handling the request.  User-supplied filters, per-call status producers
and custom responders are kept as Lean functions, exactly as the Go
code stores them as function-typed fields.
-/

/-- An incoming HTTP request as the dispatcher and user-supplied filters
see it: method, URL path, and parsed query parameters. -/
structure Request where
  method : String
  path : String
  query : List (String × String) := []

/-- The observable state of an `http.ResponseWriter`: the headers set so
far, the status code recorded by the first `WriteHeader` call (later
calls are ignored, and a `Write` with no prior `WriteHeader` records
200), and the accumulated body. -/
structure ResponseWriter where
  headers : List (String × String) := []
  statusWritten : Option Int := none
  body : String := ""

/-- Sets key `k` to value `v` in an association list, replacing an
existing binding (the behavior of both Go `map` assignment and
`http.Header.Set`). -/
def hset : List (String × String) → String → String → List (String × String)
  | [], k, v => [(k, v)]
  | (k', v') :: rest, k, v =>
      if k' = k then (k, v) :: rest else (k', v') :: hset rest k v

/-- Embeds `w.Header().Set(k, v)`. -/
def ResponseWriter.setHeader (w : ResponseWriter) (k v : String) : ResponseWriter :=
  { w with headers := hset w.headers k v }

/-- Embeds `w.WriteHeader(status)`: only the first written status is
kept. -/
def ResponseWriter.writeHeader (w : ResponseWriter) (status : Int) : ResponseWriter :=
  match w.statusWritten with
  | some _ => w
  | none => { w with statusWritten := some status }

/-- Embeds `w.Write(…)`: an implicit `WriteHeader(200)` happens when no
status was written yet, then the bytes are appended to the body. -/
def ResponseWriter.write (w : ResponseWriter) (s : String) : ResponseWriter :=
  match w.statusWritten with
  | some _ => { w with body := w.body ++ s }
  | none => { w with statusWritten := some 200, body := w.body ++ s }

/-- Embeds the `mockResponse` struct (src/mock.go): one registered
expectation.  `callbacks` are the per-call status producers, `responder`
the optional fully-custom responder, `filter` the optional match
predicate.  The `times` field is Modelled from the spec: the optional
call budget set by `Once`/`Times`; those configuration calls appear in
mock_test.go (`TestAllMocksLimits`) and in the spec but not in
src/mock.go. -/
structure MockResponse where
  resp : String
  path : String
  headers : List (String × String) := []
  method : String := "GET"
  callbacks : List (Request → Int) := []
  responder : Option (ResponseWriter → Request → ResponseWriter) := none
  filter : Option (Request → Bool) := none
  callCount : Nat := 0
  asserted : Bool := false
  times : Option Nat := none

/-- Embeds `SetHeader` (src/mock.go). -/
def MockResponse.SetHeader (mr : MockResponse) (k v : String) : MockResponse :=
  { mr with headers := hset mr.headers k v }

/-- Embeds `SetMethod` (src/mock.go). -/
def MockResponse.SetMethod (mr : MockResponse) (method : String) : MockResponse :=
  { mr with method := method }

/-- Embeds `Filter` (src/mock.go). -/
def MockResponse.Filter (mr : MockResponse) (cb : Request → Bool) : MockResponse :=
  { mr with filter := some cb }

/-- Embeds `checkFilter` (src/mock.go): an absent filter accepts every
request. -/
def MockResponse.checkFilter (mr : MockResponse) (r : Request) : Bool :=
  match mr.filter with
  | none => true
  | some f => f r

/-- Modelled from the spec: the call-budget arm of depletion — "call
budget is set and call count ≥ budget".  The budget field and its
setters are absent from src/mock.go; only mock_test.go calls them. -/
def MockResponse.budgetDepleted (mr : MockResponse) : Bool :=
  match mr.times with
  | some t => decide (mr.callCount ≥ t)
  | none => false

/-- Embeds `isDepleted` (src/mock.go): with no callbacks the entry is
never depleted by its producer sequence, otherwise it is depleted once
`callCount` reaches the number of callbacks.  The spec-modelled
call-budget arm `budgetDepleted` is disjoined, following the spec's
"depleted if (call budget is set and call count ≥ budget) or (it has a
per-call producer sequence and call count ≥ sequence length)". -/
def MockResponse.isDepleted (mr : MockResponse) : Bool :=
  mr.budgetDepleted ||
    (if mr.callbacks.length = 0 then false
     else decide (mr.callCount ≥ mr.callbacks.length))

/-- Modelled from the spec: `Times(n)` sets the call budget to `n`; a
later `Once`/`Times` call overwrites it (last write wins).  Absent from
src/mock.go. -/
def MockResponse.Times (mr : MockResponse) (n : Nat) : MockResponse :=
  { mr with times := some n }

/-- Modelled from the spec: `Once()` sets the call budget to 1.  Absent
from src/mock.go. -/
def MockResponse.Once (mr : MockResponse) : MockResponse :=
  { mr with times := some 1 }

/-- Embeds the `Mock` struct (src/mock.go): the ordered registry of
entries and the map counting unmatched requests, keyed by
method+path.  The Go map is rendered as an association list in
insertion order; the `httptest.Server` handle and the mutex are not
part of the sequential state. -/
structure Mock where
  mockResponses : List MockResponse := []
  unmockedRequests : List (String × Nat) := []

/-- Embeds `m.unmockedRequests[key]++` on a Go map: increment the
counter for `key`, starting from 0 when absent. -/
def bump : List (String × Nat) → String → List (String × Nat)
  | [], k => [(k, 1)]
  | (k', v) :: rest, k =>
      if k' = k then (k', v + 1) :: rest else (k', v) :: bump rest k

/-- Reads a counter from the association-list rendering of a Go map
(absent keys read as 0). -/
def lookupCount (l : List (String × Nat)) (k : String) : Nat :=
  match l.find? (fun p => p.1 == k) with
  | some p => p.2
  | none => 0

/-- Embeds the entry value built by `Mock.Mock` (src/mock.go): GET
method, default `content-type: application/json` header, the given body
and per-call status producers. -/
def mkMockEntry (path resp : String) (callbacks : List (Request → Int)) : MockResponse :=
  { resp := resp
    path := path
    headers := [("content-type", "application/json")]
    method := "GET"
    callbacks := callbacks }

/-- Embeds `Mock.Mock`'s effect on the registry: append the new entry
(lower-case name because Lean cannot reuse the structure's own name). -/
def Mock.mock (m : Mock) (path resp : String) (callbacks : List (Request → Int)) : Mock :=
  { m with mockResponses := m.mockResponses ++ [mkMockEntry path resp callbacks] }

/-- Embeds the entry value built by `MockResponder` (src/mock.go;
the spec calls the registration `MockFunc`): a fully-custom responder
entry. -/
def mkResponderEntry (path : String) (resp : ResponseWriter → Request → ResponseWriter) :
    MockResponse :=
  { resp := ""
    path := path
    headers := [("content-type", "application/json")]
    method := "GET"
    responder := some resp }

/-- Embeds `Mock.MockResponder`'s effect on the registry. -/
def Mock.MockResponder (m : Mock) (path : String)
    (resp : ResponseWriter → Request → ResponseWriter) : Mock :=
  { m with mockResponses := m.mockResponses ++ [mkResponderEntry path resp] }

/-- The candidate set collected by `ServeHTTP` (src/mock.go): entries
whose path and method match the request and which are not depleted,
paired with their registry index (Go works with pointers into the
registry; the index plays that role here), in registration order. -/
def candidates (m : Mock) (r : Request) : List (Nat × MockResponse) :=
  m.mockResponses.enum.filter
    (fun p => p.2.path == r.path && p.2.method == r.method && !p.2.isDepleted)

/-- The comparator of `withFiltersFirst` (src/mock.go), rendered as a
boolean order: the three-way comparator returns -1 when only `a`
carries a filter, 1 when only `b` does, and 0 otherwise, so
`le a b ↔ cmp a b ≤ 0` is: not (`a` has no filter and `b` has one). -/
def filtersFirstLE (a b : MockResponse) : Bool :=
  !(a.filter.isNone && b.filter.isSome)

/-- The comparator lifted to indexed candidates. -/
def candLE (a b : Nat × MockResponse) : Bool :=
  filtersFirstLE a.2 b.2

/-- Embeds `withFiltersFirst` (src/mock.go): `slices.SortStableFunc`
with the filters-first comparator, i.e. a stable sort moving every
entry carrying a filter before every entry without one. -/
def withFiltersFirst (rs : List (Nat × MockResponse)) : List (Nat × MockResponse) :=
  rs.mergeSort candLE

/-- The selection loop of `ServeHTTP` (src/mock.go): the first sorted
candidate whose filter accepts the request. -/
def selectEntry (m : Mock) (r : Request) : Option (Nat × MockResponse) :=
  (withFiltersFirst (candidates m r)).find? (fun p => p.2.checkFilter r)

/-- The observable outcome of handling one request: the registry state
after the handler returns, the response written, and the log lines
emitted while handling it (the only logging statement in `ServeHTTP`
is the `log.Fatal` on a failed body write, and writes to the modelled
response writer always succeed, so dispatch emits no log output). -/
structure DispatchResult where
  state : Mock
  response : ResponseWriter
  logs : List String

/-- The `for k, v := range mr.headers { w.Header().Set(k, v) }` loop of
`ServeHTTP` (src/mock.go), applied to the fresh per-request response
writer. -/
def applyHeaders (hs : List (String × String)) : ResponseWriter :=
  hs.foldl (fun w kv => w.setHeader kv.1 kv.2) {}

/-- The status computation of `ServeHTTP` (src/mock.go): when the entry
has per-call producers, the producer at index `mr.callCount - 1` — read
after the increment, hence the pre-increment `v.callCount` here — is
invoked on the request; otherwise the status stays 0. -/
def producedStatus (v : MockResponse) (r : Request) : Int :=
  if v.callbacks.length > 0 then
    match v.callbacks[v.callCount]? with
    | some cb => cb r
    | none => 0
  else 0

/-- Embeds `ServeHTTP` (src/mock.go).  On a miss: 404, body
"path not found", and the unmatched counter for method+path is bumped.
On a hit: the entry's headers are applied, its call count incremented;
a custom responder then fully owns the response, otherwise the per-call
producer at index callCount-1 (read after the increment, hence the
pre-increment count) supplies the status, written only when non-zero,
and the fixed body is written. -/
def Mock.ServeHTTP (m : Mock) (r : Request) : DispatchResult :=
  match selectEntry m r with
  | none =>
      { state := { m with unmockedRequests := bump m.unmockedRequests (r.method ++ r.path) }
        response := (ResponseWriter.writeHeader {} 404).write (r.path ++ " not found")
        logs := [] }
  | some (i, v) =>
      let w := applyHeaders v.headers
      let m' : Mock :=
        { m with mockResponses := m.mockResponses.set i { v with callCount := v.callCount + 1 } }
      match v.responder with
      | some f => { state := m', response := f w r, logs := [] }
      | none =>
          let status := producedStatus v r
          { state := m'
            response := (if status ≠ 0 then w.writeHeader status else w).write v.resp
            logs := [] }

/-- The failure message of `AssertCallCount` when no call was ever
counted for the key (src/mock.go). -/
def neverCalledMsg (method path : String) : String :=
  "mocked but never called path: " ++ path ++ " method: " ++ method

/-- The failure reported by testify's `assert.Equal` when the observed
sum differs from the expectation (src/mock.go). -/
def countMismatchMsg (expected : Int) (actual : Nat) (path : String) : String :=
  "expected " ++ toString expected ++ " but got " ++ toString actual ++ ": " ++ path

/-- The sum of call counts over all registered entries sharing the
given method and path. -/
def callCountSum (m : Mock) (method path : String) : Nat :=
  ((m.mockResponses.filter (fun mr => mr.path == path && mr.method == method)).map
    (fun mr => mr.callCount)).sum

/-- Embeds `AssertCallCount` (src/mock.go): sum the call counts over
the entries sharing the given path and method while marking each of
them asserted; report "never called" when the sum is 0, otherwise fail
exactly when the sum differs from `expected`.  Returns the updated
state and the failures reported to the test sink. -/
def Mock.AssertCallCount (m : Mock) (method path : String) (expected : Int) :
    Mock × List String :=
  let cnt := callCountSum m method path
  let mark : MockResponse → MockResponse := fun mr =>
    if mr.path == path && mr.method == method then { mr with asserted := true } else mr
  let m' : Mock := { m with mockResponses := m.mockResponses.map mark }
  if cnt = 0 then (m', [neverCalledMsg method path])
  else (m', if (cnt : Int) = expected then [] else [countMismatchMsg expected cnt path])

/-- Embeds `AssertCallCountAsserted` (src/mock.go): one failure per
registered entry never marked asserted. -/
def Mock.AssertCallCountAsserted (m : Mock) : List String :=
  m.mockResponses.filterMap (fun mr =>
    if mr.asserted then none
    else some ("url: " ++ mr.path ++ " is mocked but never asserted. It was called "
      ++ toString mr.callCount ++ " times"))

/-- The failure message of `AssertNoMissingMocks` for one unmatched
key (src/mock.go). -/
def missingMockMsg (url : String) (cnt : Nat) : String :=
  "url: " ++ url ++ " is called but not mocked. It was called " ++ toString cnt ++ " times"

/-- Embeds `AssertNoMissingMocks` (src/mock.go): one failure per
distinct unmatched method+path key, reporting its occurrence count. -/
def Mock.AssertNoMissingMocks (m : Mock) : List String :=
  m.unmockedRequests.map (fun p => missingMockMsg p.1 p.2)

/-- Embeds `AssertMocksCalled` (src/mock.go): one failure per entry
with call count 0 that was never asserted. -/
def Mock.AssertMocksCalled (m : Mock) : List String :=
  m.mockResponses.filterMap (fun mr =>
    if mr.callCount = 0 && !mr.asserted then
      some (mr.method ++ " " ++ mr.path ++ " mocked but never called.")
    else none)

/-- Whether depleted entries exist for the request's method+path (the
situation the spec's depletion diagnostic talks about). -/
def depletedMatchesExist (m : Mock) (r : Request) : Bool :=
  m.mockResponses.any
    (fun v => v.path == r.path && v.method == r.method && v.isDepleted)

/-! Helper lemmas about the filters-first stable sort. -/

/-- The filters-first order is transitive. -/
theorem candLE_trans (a b c : Nat × MockResponse) :
    candLE a b = true → candLE b c = true → candLE a c = true := by
  simp only [candLE, filtersFirstLE]
  cases a.2.filter <;> cases b.2.filter <;> cases c.2.filter <;> simp

/-- The filters-first order is total. -/
theorem candLE_total (a b : Nat × MockResponse) : (candLE a b || candLE b a) = true := by
  simp only [candLE, filtersFirstLE]
  cases a.2.filter <;> cases b.2.filter <;> simp

/-- A candidate carrying a filter is below everything in the
filters-first order. -/
theorem candLE_of_isSome (a b : Nat × MockResponse) (h : a.2.filter.isSome = true) :
    candLE a b = true := by
  simp only [candLE, filtersFirstLE]
  cases ha : a.2.filter
  · rw [ha] at h; simp at h
  · simp

/-- Against a filterless candidate, the filters-first order holds
exactly when the right side is also filterless. -/
theorem candLE_of_isNone (a b : Nat × MockResponse) (h : a.2.filter.isNone = true) :
    candLE a b = !b.2.filter.isSome := by
  simp only [candLE, filtersFirstLE]
  cases ha : a.2.filter
  · simp
  · rw [ha] at h; simp at h

/-- Two partitions of the same list by the same predicate coincide
piecewise. -/
theorem append_partition_unique {α : Type} {p : α → Bool} (xs : List α) :
    ∀ (us : List α) {ys vs : List α}, xs ++ ys = us ++ vs →
      (∀ a ∈ xs, p a = true) → (∀ a ∈ ys, p a = false) →
      (∀ a ∈ us, p a = true) → (∀ a ∈ vs, p a = false) →
      xs = us ∧ ys = vs := by
  induction xs with
  | nil =>
      intro us ys vs h _ hy hu _
      cases us with
      | nil => exact ⟨rfl, by simpa using h⟩
      | cons b us' =>
          exfalso
          have hb : b ∈ ys := by
            have hys : ys = b :: (us' ++ vs) := by simpa using h
            rw [hys]; exact List.mem_cons_self _ _
          have h1 := hy b hb
          have h2 := hu b (List.mem_cons_self _ _)
          rw [h1] at h2
          exact Bool.false_ne_true h2
  | cons a xs ih =>
      intro us ys vs h hx hy hu hv
      cases us with
      | nil =>
          exfalso
          have ha : a ∈ vs := by
            have hvs : a :: (xs ++ ys) = vs := by simpa using h
            rw [← hvs]; exact List.mem_cons_self _ _
          have h1 := hv a ha
          have h2 := hx a (List.mem_cons_self _ _)
          rw [h1] at h2
          exact Bool.false_ne_true h2
      | cons b us' =>
          rw [List.cons_append, List.cons_append] at h
          injection h with h1 h2
          subst h1
          obtain ⟨e1, e2⟩ := ih us' h2
            (fun x hx' => hx x (List.mem_cons_of_mem _ hx')) hy
            (fun x hx' => hu x (List.mem_cons_of_mem _ hx')) hv
          exact ⟨by rw [e1], e2⟩

/-- The stable sort by the filters-first comparator is exactly: the
candidates carrying a filter, in their original order, followed by the
filterless candidates, in their original order. -/
theorem withFiltersFirst_eq (rs : List (Nat × MockResponse)) :
    withFiltersFirst rs =
      rs.filter (fun p => p.2.filter.isSome) ++ rs.filter (fun p => p.2.filter.isNone) := by
  unfold withFiltersFirst
  induction rs with
  | nil => simp
  | cons a l ih =>
      obtain ⟨l₁, l₂, hEq, hTail, hHead⟩ := List.mergeSort_cons candLE_trans candLE_total a l
      cases hA : a.2.filter with
      | some f =>
          have hSome : a.2.filter.isSome = true := by rw [hA]; rfl
          have hl₁ : l₁ = [] := by
            cases hl : l₁ with
            | nil => rfl
            | cons b t =>
                exfalso
                have hb := hHead b (by rw [hl]; exact List.mem_cons_self _ _)
                rw [candLE_of_isSome a b hSome] at hb
                exact Bool.false_ne_true hb
          rw [hl₁] at hEq hTail
          rw [List.nil_append] at hEq hTail
          rw [hEq, List.filter_cons, List.filter_cons]
          simp only [hA, Option.isSome_some, Option.isNone_some, if_true, if_false]
          rw [List.cons_append]
          exact congrArg (a :: ·) (hTail ▸ ih)
      | none =>
          have hNone : a.2.filter.isNone = true := by rw [hA]; rfl
          have hl₁A : ∀ b ∈ l₁, b.2.filter.isSome = true := by
            intro b hb
            have h3 := hHead b hb
            rw [candLE_of_isNone a b hNone] at h3
            simpa using h3
          have hs := List.sorted_mergeSort candLE_trans candLE_total (a :: l)
          rw [hEq] at hs
          have hl₂B : ∀ b ∈ l₂, b.2.filter.isSome = false := by
            intro b hb
            have hpair := (List.pairwise_append.mp hs).2.1
            have hle : candLE a b = true := (List.pairwise_cons.mp hpair).1 b hb
            rw [candLE_of_isNone a b hNone] at hle
            simpa using hle
          have hpart := hTail ▸ ih
          have hfA : ∀ x ∈ l.filter (fun p => p.2.filter.isSome), x.2.filter.isSome = true := by
            intro x hx; exact (List.mem_filter.mp hx).2
          have hfB : ∀ x ∈ l.filter (fun p => p.2.filter.isNone), x.2.filter.isSome = false := by
            intro x hx
            have := (List.mem_filter.mp hx).2
            cases hxf : x.2.filter
            · rfl
            · rw [hxf] at this; simp at this
          have hl₂B' : ∀ b ∈ l₂, (fun p => p.2.filter.isSome) b = false := hl₂B
          obtain ⟨e1, e2⟩ := append_partition_unique l₁
            (l.filter (fun p => p.2.filter.isSome)) hpart hl₁A hl₂B' hfA hfB
          rw [hEq, e1, e2, List.filter_cons, List.filter_cons]
          simp only [hA, Option.isSome_none, Option.isNone_none, if_false, if_true]
          rfl

/-! Helper lemmas about selection and dispatch. -/

/-- Selection tries the filtered candidates (in registration order)
first, then the filterless ones (in registration order). -/
theorem selectEntry_eq (m : Mock) (r : Request) :
    selectEntry m r =
      (((candidates m r).filter (fun p => p.2.filter.isSome)).find?
          (fun p => p.2.checkFilter r)).or
        (((candidates m r).filter (fun p => p.2.filter.isNone)).find?
          (fun p => p.2.checkFilter r)) := by
  unfold selectEntry
  rw [withFiltersFirst_eq, List.find?_append]

/-- An entry without a filter accepts every request. -/
theorem checkFilter_of_isNone (mr : MockResponse) (r : Request)
    (h : mr.filter.isNone = true) : mr.checkFilter r = true := by
  unfold MockResponse.checkFilter
  cases hf : mr.filter
  · rfl
  · rw [hf] at h; simp at h

/-- Finding the first acceptor among filterless candidates is just
taking the first one. -/
theorem find?_filterless (r : Request) (l : List (Nat × MockResponse))
    (h : ∀ p ∈ l, p.2.filter.isNone = true) :
    l.find? (fun p => p.2.checkFilter r) = l.head? := by
  cases l with
  | nil => rfl
  | cons a t =>
      have ha := checkFilter_of_isNone a.2 r (h a (List.mem_cons_self _ _))
      rw [List.find?_cons, ha]
      rfl

/-- Membership in the candidate set unpacked: the indexed entry really
is the registry entry at that index, it matches the request key, and it
is not depleted. -/
theorem mem_candidates (m : Mock) (r : Request) (q : Nat × MockResponse)
    (h : q ∈ candidates m r) :
    m.mockResponses[q.1]? = some q.2 ∧ q.2.path = r.path ∧ q.2.method = r.method ∧
      q.2.isDepleted = false := by
  unfold candidates at h
  obtain ⟨hmem, hcond⟩ := List.mem_filter.mp h
  have hget := List.mem_enum_iff_getElem?.mp hmem
  simp only [Bool.and_eq_true, Bool.not_eq_true', beq_iff_eq] at hcond
  exact ⟨hget, hcond.1.1, hcond.1.2, hcond.2⟩

/-- A selected entry is a matching, non-depleted registry entry whose
filter accepts the request. -/
theorem selectEntry_some (m : Mock) (r : Request) (q : Nat × MockResponse)
    (h : selectEntry m r = some q) :
    m.mockResponses[q.1]? = some q.2 ∧ q.2.path = r.path ∧ q.2.method = r.method ∧
      q.2.isDepleted = false ∧ q.2.checkFilter r = true := by
  unfold selectEntry at h
  have hacc := List.find?_some h
  have hmem := List.mem_of_find?_eq_some h
  rw [withFiltersFirst_eq] at hmem
  have hcand : q ∈ candidates m r := by
    rcases List.mem_append.mp hmem with h' | h'
    · exact (List.mem_filter.mp h').1
    · exact (List.mem_filter.mp h').1
  obtain ⟨h1, h2, h3, h4⟩ := mem_candidates m r q hcand
  exact ⟨h1, h2, h3, h4, hacc⟩

/-- The unmatched branch of `ServeHTTP`: 404, "path not found" body,
unmatched counter bumped, registry untouched, nothing logged. -/
theorem serveHTTP_of_none (m : Mock) (r : Request) (h : selectEntry m r = none) :
    m.ServeHTTP r =
      { state := { m with unmockedRequests := bump m.unmockedRequests (r.method ++ r.path) }
        response := (ResponseWriter.writeHeader {} 404).write (r.path ++ " not found")
        logs := [] } := by
  unfold Mock.ServeHTTP
  rw [h]

/-- The matched branch of `ServeHTTP`: the selected entry's call count
is incremented in place and nothing is logged. -/
theorem serveHTTP_of_some (m : Mock) (r : Request) (i : Nat) (v : MockResponse)
    (h : selectEntry m r = some (i, v)) :
    (m.ServeHTTP r).state =
        { m with mockResponses := m.mockResponses.set i { v with callCount := v.callCount + 1 } } ∧
      (m.ServeHTTP r).logs = [] := by
  unfold Mock.ServeHTTP
  simp only [h]
  cases hres : v.responder with
  | some f => simp only [hres]; exact ⟨trivial, trivial⟩
  | none => simp only [hres]; exact ⟨trivial, trivial⟩

/-- The response of the matched branch for a custom-responder entry:
the responder receives the writer with the entry's headers applied and
fully owns the response. -/
theorem serveHTTP_responder (m : Mock) (r : Request) (i : Nat) (v : MockResponse)
    (f : ResponseWriter → Request → ResponseWriter)
    (h : selectEntry m r = some (i, v)) (hres : v.responder = some f) :
    (m.ServeHTTP r).response = f (applyHeaders v.headers) r := by
  unfold Mock.ServeHTTP
  simp only [h, hres]

/-- The response of the matched branch for a plain entry: the producer
at the pre-increment call count supplies the status, written only when
non-zero, and the fixed body is written. -/
theorem serveHTTP_plain (m : Mock) (r : Request) (i : Nat) (v : MockResponse)
    (h : selectEntry m r = some (i, v)) (hres : v.responder = none) :
    (m.ServeHTTP r).response =
      (if producedStatus v r ≠ 0 then
        (applyHeaders v.headers).writeHeader (producedStatus v r)
       else applyHeaders v.headers).write v.resp := by
  unfold Mock.ServeHTTP
  simp only [h, hres]

/-- Applying headers never writes a status. -/
theorem foldl_setHeader_statusWritten (hs : List (String × String)) (w : ResponseWriter) :
    (hs.foldl (fun w kv => w.setHeader kv.1 kv.2) w).statusWritten = w.statusWritten := by
  induction hs generalizing w with
  | nil => rfl
  | cons a t ih =>
      rw [List.foldl_cons, ih]
      rfl

/-- Applying headers never writes body bytes. -/
theorem foldl_setHeader_body (hs : List (String × String)) (w : ResponseWriter) :
    (hs.foldl (fun w kv => w.setHeader kv.1 kv.2) w).body = w.body := by
  induction hs generalizing w with
  | nil => rfl
  | cons a t ih =>
      rw [List.foldl_cons, ih]
      rfl

/-- The writer obtained by applying an entry's headers has no status
written and an empty body. -/
theorem applyHeaders_statusWritten (hs : List (String × String)) :
    (applyHeaders hs).statusWritten = none :=
  foldl_setHeader_statusWritten hs {}

/-- The writer obtained by applying an entry's headers has an empty
body. -/
theorem applyHeaders_body (hs : List (String × String)) : (applyHeaders hs).body = "" :=
  foldl_setHeader_body hs {}

/-! Helper lemmas about assertions and the unmatched-request map. -/

/-- The state after `AssertCallCount`: every entry sharing the key is
marked asserted, the rest are untouched. -/
theorem assertCallCount_state (m : Mock) (method path : String) (expected : Int) :
    (m.AssertCallCount method path expected).1.mockResponses =
      m.mockResponses.map (fun mr =>
        if mr.path == path && mr.method == method then { mr with asserted := true } else mr) := by
  unfold Mock.AssertCallCount
  by_cases hc : callCountSum m method path = 0
  · simp [hc]
  · simp [hc]

/-- The failures reported by `AssertCallCount`, as a function of the
observed sum. -/
theorem assertCallCount_failures (m : Mock) (method path : String) (expected : Int) :
    (m.AssertCallCount method path expected).2 =
      (if callCountSum m method path = 0 then [neverCalledMsg method path]
       else if (callCountSum m method path : Int) = expected then []
       else [countMismatchMsg expected (callCountSum m method path) path]) := by
  unfold Mock.AssertCallCount
  by_cases hc : callCountSum m method path = 0
  · simp [hc]
  · simp [hc]

/-- After `AssertCallCount`, every entry sharing the key is asserted,
whatever the outcome was. -/
theorem assertCallCount_marks (m : Mock) (method path : String) (expected : Int) :
    ∀ mr ∈ (m.AssertCallCount method path expected).1.mockResponses,
      mr.path = path → mr.method = method → mr.asserted = true := by
  intro mr hmr hp hm
  rw [assertCallCount_state] at hmr
  obtain ⟨x, _, hfx⟩ := List.mem_map.mp hmr
  by_cases hmatch : (x.path == path && x.method == method) = true
  · rw [if_pos hmatch] at hfx
    rw [← hfx]
  · rw [if_neg hmatch] at hfx
    exfalso
    apply hmatch
    rw [hfx]
    simp [hp, hm]

/-- A filterMap ignoring the elements a predicate selects can be
computed on the complement alone. -/
theorem filterMap_restrict {α β : Type} (f : α → Option β) (p : α → Bool) :
    ∀ l : List α, (∀ a ∈ l, p a = true → f a = none) →
      l.filterMap f = (l.filter (fun a => !p a)).filterMap f := by
  intro l
  induction l with
  | nil => intro _; rfl
  | cons a t ih =>
      intro h
      have htail := ih (fun x hx hpx => h x (List.mem_cons_of_mem _ hx) hpx)
      by_cases hp : p a = true
      · have hfa := h a (List.mem_cons_self _ _) hp
        simp [List.filterMap_cons, List.filter_cons, hp, hfa, htail]
      · cases hfa : f a <;>
          simp [List.filterMap_cons, List.filter_cons, hp, hfa, htail]

/-- Bumping a key increments exactly its counter. -/
theorem lookupCount_bump_self (l : List (String × Nat)) (k : String) :
    lookupCount (bump l k) k = lookupCount l k + 1 := by
  induction l with
  | nil => simp [bump, lookupCount]
  | cons a t ih =>
      by_cases hk : a.1 = k
      · simp [bump, lookupCount, hk, List.find?_cons]
      · have hbk : (a.1 == k) = false := by simp [hk]
        simp only [bump]
        rw [if_neg hk]
        unfold lookupCount
        rw [List.find?_cons, List.find?_cons, hbk]
        exact ih

/-- Bumping a key leaves every other counter unchanged. -/
theorem lookupCount_bump_ne (l : List (String × Nat)) (k k' : String) (h : k' ≠ k) :
    lookupCount (bump l k) k' = lookupCount l k' := by
  have hne : k ≠ k' := fun e => h e.symm
  induction l with
  | nil =>
      have : (k == k') = false := by simp [hne]
      simp [bump, lookupCount, this]
  | cons a t ih =>
      by_cases hk : a.1 = k
      · have hbk : (a.1 == k') = false := by rw [hk]; simp [hne]
        simp only [bump]
        rw [if_pos hk]
        unfold lookupCount
        rw [List.find?_cons, List.find?_cons]
        simp only [hbk]
      · simp only [bump]
        rw [if_neg hk]
        by_cases hk' : a.1 = k'
        · unfold lookupCount
          rw [List.find?_cons, List.find?_cons]
          simp [hk']
        · have hbk' : (a.1 == k') = false := by simp [hk']
          unfold lookupCount
          rw [List.find?_cons, List.find?_cons, hbk']
          exact ih

/-- Every key of a bumped map is the bumped key or an original key. -/
theorem mem_bump_keys (l : List (String × Nat)) (k x : String)
    (h : x ∈ (bump l k).map Prod.fst) : x = k ∨ x ∈ l.map Prod.fst := by
  induction l with
  | nil => simp [bump] at h; exact Or.inl h
  | cons a t ih =>
      by_cases hk : a.1 = k
      · simp only [bump] at h
        rw [if_pos hk, List.map_cons] at h
        rcases List.mem_cons.mp h with h' | h'
        · exact Or.inl (by rw [h']; exact hk)
        · exact Or.inr (by rw [List.map_cons]; exact List.mem_cons_of_mem _ h')
      · simp only [bump] at h
        rw [if_neg hk, List.map_cons] at h
        rcases List.mem_cons.mp h with h' | h'
        · exact Or.inr (by rw [List.map_cons, h']; exact List.mem_cons_self _ _)
        · rcases ih h' with h'' | h''
          · exact Or.inl h''
          · exact Or.inr (by rw [List.map_cons]; exact List.mem_cons_of_mem _ h'')

/-- Bumping preserves distinctness of the map keys. -/
theorem bump_keys_nodup (l : List (String × Nat)) (k : String)
    (h : (l.map Prod.fst).Nodup) : ((bump l k).map Prod.fst).Nodup := by
  induction l with
  | nil => simp [bump]
  | cons a t ih =>
      rw [List.map_cons, List.nodup_cons] at h
      by_cases hk : a.1 = k
      · simp only [bump]
        rw [if_pos hk, List.map_cons, List.nodup_cons]
        exact h
      · simp only [bump]
        rw [if_neg hk, List.map_cons, List.nodup_cons]
        refine ⟨?_, ih h.2⟩
        intro hmem
        rcases mem_bump_keys t k a.1 hmem with h' | h'
        · exact hk h'
        · exact h.1 h'

/-! Helper lemmas about writers, produced statuses, and depletion. -/

/-- Writing on a writer with no status yet records 200 and appends the
body. -/
theorem write_of_none (w : ResponseWriter) (s : String) (h : w.statusWritten = none) :
    (w.write s).statusWritten = some 200 ∧ (w.write s).body = w.body ++ s ∧
      (w.write s).headers = w.headers := by
  unfold ResponseWriter.write
  rw [h]
  exact ⟨rfl, rfl, rfl⟩

/-- Writing on a writer with a status already written keeps it and
appends the body. -/
theorem write_of_some (w : ResponseWriter) (s : String) (st : Int)
    (h : w.statusWritten = some st) :
    (w.write s).statusWritten = some st ∧ (w.write s).body = w.body ++ s ∧
      (w.write s).headers = w.headers := by
  unfold ResponseWriter.write
  rw [h]
  exact ⟨rfl, rfl, rfl⟩

/-- Writing a header on a writer with no status yet records exactly that
status. -/
theorem writeHeader_of_none (w : ResponseWriter) (st : Int) (h : w.statusWritten = none) :
    w.writeHeader st = { w with statusWritten := some st } := by
  unfold ResponseWriter.writeHeader
  rw [h]

/-- A non-depleted entry with producers has its pre-increment call count
in bounds. -/
theorem callCount_lt_of_not_depleted (v : MockResponse) (hdep : v.isDepleted = false)
    (hne : v.callbacks ≠ []) : v.callCount < v.callbacks.length := by
  unfold MockResponse.isDepleted at hdep
  rw [Bool.or_eq_false_iff] at hdep
  have h2 := hdep.2
  rw [if_neg (Nat.pos_iff_ne_zero.mp (List.length_pos.mpr hne))] at h2
  exact Nat.lt_of_not_le (of_decide_eq_false h2)

/-- A non-depleted entry with a budget has its call count below the
budget. -/
theorem callCount_lt_budget_of_not_depleted (v : MockResponse) (n : Nat)
    (hdep : v.isDepleted = false) (ht : v.times = some n) : v.callCount < n := by
  unfold MockResponse.isDepleted MockResponse.budgetDepleted at hdep
  rw [Bool.or_eq_false_iff, ht] at hdep
  exact Nat.lt_of_not_le (of_decide_eq_false hdep.1)

/-- An entry at its budget is depleted. -/
theorem depleted_of_budget_reached (v : MockResponse) (n : Nat) (ht : v.times = some n)
    (hc : n ≤ v.callCount) : v.isDepleted = true := by
  unfold MockResponse.isDepleted MockResponse.budgetDepleted
  rw [ht]
  simp [hc]

/-- An entry whose producer sequence is exhausted is depleted. -/
theorem depleted_of_callbacks_exhausted (v : MockResponse) (hne : v.callbacks ≠ [])
    (hc : v.callbacks.length ≤ v.callCount) : v.isDepleted = true := by
  unfold MockResponse.isDepleted
  rw [if_neg (Nat.pos_iff_ne_zero.mp (List.length_pos.mpr hne))]
  simp [hc]

/-- A depleted registry entry is never selected, and dispatch leaves it
untouched. -/
theorem depleted_not_selected (m : Mock) (r : Request) (i : Nat) (v : MockResponse)
    (hget : m.mockResponses[i]? = some v) (hdep : v.isDepleted = true) :
    (∀ q, selectEntry m r = some q → q.1 ≠ i) ∧
      (m.ServeHTTP r).state.mockResponses[i]? = some v := by
  have hski : ∀ q, selectEntry m r = some q → q.1 ≠ i := by
    intro q hq hqi
    obtain ⟨hgq, _, _, hdq, _⟩ := selectEntry_some m r q hq
    rw [hqi, hget] at hgq
    have : q.2 = v := Option.some.inj hgq.symm
    rw [this, hdep] at hdq
    exact Bool.true_eq_false.mp hdq
  refine ⟨hski, ?_⟩
  cases hsel : selectEntry m r with
  | none =>
      rw [serveHTTP_of_none m r hsel]
      exact hget
  | some q =>
      have hq : selectEntry m r = some (q.1, q.2) := by rw [hsel]
      rw [(serveHTTP_of_some m r q.1 q.2 hq).1]
      rw [List.getElem?_set_ne (hski q hsel)]
      exact hget

/-- After dispatch, a registry entry is unchanged or was the selected,
non-depleted entry and only its call count moved up by one. -/
theorem selected_increment_at (m : Mock) (r : Request) (i : Nat) (v : MockResponse)
    (hget : m.mockResponses[i]? = some v) :
    (m.ServeHTTP r).state.mockResponses[i]? = some v ∨
      ((m.ServeHTTP r).state.mockResponses[i]? =
          some { v with callCount := v.callCount + 1 } ∧
        selectEntry m r = some (i, v) ∧ v.isDepleted = false) := by
  cases hsel : selectEntry m r with
  | none =>
      left
      rw [serveHTTP_of_none m r hsel]
      exact hget
  | some q =>
      have hq : selectEntry m r = some (q.1, q.2) := by rw [hsel]
      obtain ⟨hgq, _, _, hdq, _⟩ := selectEntry_some m r q hsel
      by_cases hqi : q.1 = i
      · right
        rw [hqi, hget] at hgq
        have hv : q.2 = v := Option.some.inj hgq.symm
        have hlt : i < m.mockResponses.length := (List.getElem?_eq_some.mp hget).1
        rw [(serveHTTP_of_some m r q.1 q.2 hq).1]
        constructor
        · rw [hqi, hv, List.getElem?_set_self hlt]
        · rw [← hv, ← hqi]
          exact ⟨rfl, hdq⟩
      · left
        rw [(serveHTTP_of_some m r q.1 q.2 hq).1]
        rw [List.getElem?_set_ne hqi]
        exact hget

/-- The unmatched branch writes a 404 status. -/
theorem serve404 (m : Mock) (r : Request) (h : selectEntry m r = none) :
    (m.ServeHTTP r).response.statusWritten = some 404 := by
  rw [serveHTTP_of_none m r h]
  rfl

/-! Concrete states used to witness the claims. -/

/-- A GET request for path /t. -/
def rT : Request := { method := "GET", path := "/t" }

/-- An entry whose single-producer sequence is exhausted (call count 1
with one callback): depleted. -/
def eDep : MockResponse :=
  { resp := "x", path := "/t", callbacks := [fun _ => (202 : Int)], callCount := 1 }

/-- A registry holding only the depleted entry. -/
def mDep : Mock := { mockResponses := [eDep] }

/-! The claims. -/

/-- C6: a request selecting no entry gets HTTP 404 with body
"path not found", the registry is untouched and the unmatched counter
for method+path is bumped — by exactly one, leaving other keys and key
distinctness intact — and `AssertNoMissingMocks` fails once per
distinct unmatched key, reporting its occurrence count. -/
theorem mock_unmatched_404_and_missing_mocks (m : Mock) (r : Request)
    (l : List (String × Nat)) (k k' : String) :
    (selectEntry m r = none →
      (m.ServeHTTP r).response.statusWritten = some 404 ∧
      (m.ServeHTTP r).response.body = r.path ++ " not found" ∧
      (m.ServeHTTP r).state.mockResponses = m.mockResponses ∧
      (m.ServeHTTP r).state.unmockedRequests = bump m.unmockedRequests (r.method ++ r.path)) ∧
    lookupCount (bump l k) k = lookupCount l k + 1 ∧
    (k' ≠ k → lookupCount (bump l k) k' = lookupCount l k') ∧
    ((l.map Prod.fst).Nodup → ((bump l k).map Prod.fst).Nodup) ∧
    m.AssertNoMissingMocks = m.unmockedRequests.map (fun p => missingMockMsg p.1 p.2) ∧
    (m.AssertNoMissingMocks).length = m.unmockedRequests.length := by
  refine ⟨?_, lookupCount_bump_self l k, fun h => lookupCount_bump_ne l k k' h,
    fun h => bump_keys_nodup l k h, rfl, ?_⟩
  · intro h
    rw [serveHTTP_of_none m r h]
    refine ⟨rfl, ?_, rfl, rfl⟩
    show (("" : String) ++ (r.path ++ " not found")) = r.path ++ " not found"
    exact String.empty_append _
  · unfold Mock.AssertNoMissingMocks
    exact List.length_map _ _

/-- A registry with one old unmatched key and no entries, and a request
that cannot match. -/
def mC6 : Mock := { mockResponses := [], unmockedRequests := [("GET/old", 3)] }

/-- Witness for C6 at a concrete state: the miss produces 404 with the
expected body and appends a fresh counter for the request's key, and
bumping an existing key increments it. -/
theorem mock_unmatched_404_and_missing_mocks_witness :
    (mC6.ServeHTTP rT).response.statusWritten = some 404 ∧
    (mC6.ServeHTTP rT).response.body = "/t not found" ∧
    (mC6.ServeHTTP rT).state.unmockedRequests = [("GET/old", 3), ("GET/t", 1)] ∧
    lookupCount (bump [("GET/old", 3)] "GET/old") "GET/old" = 4 := by
  have h := mock_unmatched_404_and_missing_mocks mC6 rT [("GET/old", 3)] "GET/old" "POST/x"
  have hsel : selectEntry mC6 rT = none := by rw [selectEntry_eq]; rfl
  obtain ⟨h1, h2, h3, h4⟩ := h.1 hsel
  refine ⟨h1, by rw [h2]; rfl, by rw [h4]; rfl, by rw [h.2.1]; rfl⟩

/-- C7 counterexample: at a state whose only entry for the key is
depleted, the unmatched dispatch produces just the 404 — the handler
emits no log output at all, so no diagnostic about the exhausted
entries is emitted. -/
theorem mock_depleted_no_diagnostic_cex :
    depletedMatchesExist mDep rT = true ∧
    selectEntry mDep rT = none ∧
    (mDep.ServeHTTP rT).response.statusWritten = some 404 ∧
    (mDep.ServeHTTP rT).logs = [] := by
  have hsel : selectEntry mDep rT = none := by rw [selectEntry_eq]; rfl
  have h := serveHTTP_of_none mDep rT hsel
  exact ⟨rfl, hsel, by rw [h]; rfl, by rw [h]⟩

/-- C7 amended: dispatch never emits a diagnostic; when a request
matches no candidate — even when depleted entries exist for its
method+path — the full behavior is the 404 response and the
unmatched-counter increment, with no diagnostic emitted. -/
theorem mock_unmatched_no_diagnostic (m : Mock) (r : Request) :
    (m.ServeHTTP r).logs = [] ∧
    (selectEntry m r = none → depletedMatchesExist m r = true →
      (m.ServeHTTP r).response.statusWritten = some 404 ∧
      (m.ServeHTTP r).state.unmockedRequests = bump m.unmockedRequests (r.method ++ r.path) ∧
      (m.ServeHTTP r).logs = []) := by
  have hlogs : (m.ServeHTTP r).logs = [] := by
    cases hsel : selectEntry m r with
    | none => rw [serveHTTP_of_none m r hsel]
    | some q => exact (serveHTTP_of_some m r q.1 q.2 (by rw [hsel])).2
  refine ⟨hlogs, fun hsel _ => ?_⟩
  rw [serveHTTP_of_none m r hsel]
  exact ⟨rfl, rfl, rfl⟩

/-- Witness for the amended C7 at the depleted concrete state. -/
theorem mock_unmatched_no_diagnostic_witness :
    (mDep.ServeHTTP rT).response.statusWritten = some 404 ∧
    (mDep.ServeHTTP rT).state.unmockedRequests = [("GET/t", 1)] ∧
    (mDep.ServeHTTP rT).logs = [] := by
  have hsel : selectEntry mDep rT = none := by rw [selectEntry_eq]; rfl
  have h := (mock_unmatched_no_diagnostic mDep rT).2 hsel rfl
  exact ⟨h.1, by rw [h.2.1]; rfl, h.2.2⟩

/-- C10: dispatch mutates at most one entry.  On a miss the registry is
untouched and only the unmatched counter for the request's key changes;
on a hit the unmatched map is untouched and the registry changes only
at the selected index, where solely the call count moves up by one. -/
theorem mock_dispatch_frame (m : Mock) (r : Request) :
    (selectEntry m r = none →
      (m.ServeHTTP r).state.mockResponses = m.mockResponses ∧
      (m.ServeHTTP r).state.unmockedRequests = bump m.unmockedRequests (r.method ++ r.path)) ∧
    (∀ i v, selectEntry m r = some (i, v) →
      (m.ServeHTTP r).state.unmockedRequests = m.unmockedRequests ∧
      (m.ServeHTTP r).state.mockResponses =
        m.mockResponses.set i { v with callCount := v.callCount + 1 } ∧
      m.mockResponses[i]? = some v ∧
      (∀ j, j ≠ i → (m.ServeHTTP r).state.mockResponses[j]? = m.mockResponses[j]?)) := by
  constructor
  · intro h
    rw [serveHTTP_of_none m r h]
    exact ⟨rfl, rfl⟩
  · intro i v h
    have hstate := (serveHTTP_of_some m r i v h).1
    refine ⟨by rw [hstate], by rw [hstate], (selectEntry_some m r (i, v) h).1, ?_⟩
    intro j hj
    rw [hstate]
    exact List.getElem?_set_ne (fun e => hj e.symm)

/-- A plain unconditional entry and the registry holding only it. -/
def eC10 : MockResponse := { resp := "ok", path := "/t" }

/-- Registry for the C10 witness. -/
def mC10 : Mock := { mockResponses := [eC10] }

/-- Witness for C10 at a concrete hit: only the call count of the
selected entry changes and the unmatched map stays empty. -/
theorem mock_dispatch_frame_witness :
    (mC10.ServeHTTP rT).state.mockResponses = [{ eC10 with callCount := 1 }] ∧
    (mC10.ServeHTTP rT).state.unmockedRequests = [] := by
  have hsel : selectEntry mC10 rT = some (0, eC10) := by rw [selectEntry_eq]; rfl
  have h := (mock_dispatch_frame mC10 rT).2 0 eC10 hsel
  exact ⟨by rw [h.2.1]; rfl, by rw [h.1]; rfl⟩

/-- C1: among the non-depleted entries matching path and method, every
filter-carrying entry is tried before every filterless one, each group
in registration order; the request goes to the first candidate in that
order whose filter accepts it (an absent filter always accepts), so an
accepted filtered entry wins even when an unconditional entry was
registered first. -/
theorem mock_filters_tried_before_unconditional (m : Mock) (r : Request) :
    (withFiltersFirst (candidates m r) =
      (candidates m r).filter (fun p => p.2.filter.isSome) ++
        (candidates m r).filter (fun p => p.2.filter.isNone)) ∧
    (selectEntry m r =
      ((((candidates m r).filter (fun p => p.2.filter.isSome)).find?
          (fun p => p.2.checkFilter r)).or
        (((candidates m r).filter (fun p => p.2.filter.isNone)).find?
          (fun p => p.2.checkFilter r)))) ∧
    (∀ p, p ∈ (candidates m r).filter (fun p => p.2.filter.isSome) →
      p.2.checkFilter r = true →
      ∃ q, selectEntry m r = some q ∧ q.2.filter.isSome = true ∧
        m.mockResponses[q.1]? = some q.2 ∧ q.2.checkFilter r = true) ∧
    ((∀ p, p ∈ (candidates m r).filter (fun p => p.2.filter.isSome) →
        p.2.checkFilter r = false) →
      selectEntry m r = ((candidates m r).filter (fun p => p.2.filter.isNone)).head?) := by
  refine ⟨withFiltersFirst_eq (candidates m r), selectEntry_eq m r, ?_, ?_⟩
  · intro p hp hacc
    have hex : (((candidates m r).filter (fun p => p.2.filter.isSome)).find?
        (fun p => p.2.checkFilter r)).isSome = true :=
      List.find?_isSome.mpr ⟨p, hp, hacc⟩
    obtain ⟨q, hq⟩ := Option.isSome_iff_exists.mp hex
    have hmemq := List.mem_of_find?_eq_some hq
    have hsel : selectEntry m r = some q := by
      rw [selectEntry_eq, hq]
      rfl
    have hq2 : q.2.checkFilter r = true := by
      have h5 := List.find?_some hq
      simpa using h5
    refine ⟨q, hsel, (List.mem_filter.mp hmemq).2, ?_, hq2⟩
    exact (mem_candidates m r q (List.mem_filter.mp hmemq).1).1
  · intro hnone
    have hfA : (((candidates m r).filter (fun p => p.2.filter.isSome)).find?
        (fun p => p.2.checkFilter r)) = none := by
      rw [List.find?_eq_none]
      intro x hx
      rw [hnone x hx]
      exact Bool.false_ne_true
    rw [selectEntry_eq, hfA, Option.none_or]
    apply find?_filterless
    intro p hp
    exact (List.mem_filter.mp hp).2

/-- An unconditional entry for /t, registered first in the C1 witness
registry. -/
def eUncond : MockResponse := { resp := "fallback", path := "/t" }

/-- A filtered entry for /t whose filter accepts every GET request. -/
def eFil : MockResponse :=
  { resp := "one", path := "/t", filter := some (fun req => req.method == "GET") }

/-- Registry registering the unconditional entry before the filtered
one. -/
def mC1 : Mock := { mockResponses := [eUncond, eFil] }

/-- Witness for C1: although the unconditional entry was registered
first, the accepted filtered entry is selected. -/
theorem mock_filters_tried_before_unconditional_witness :
    ∃ q, selectEntry mC1 rT = some q ∧ q.2.filter.isSome = true ∧
      mC1.mockResponses[q.1]? = some q.2 ∧ q.2.checkFilter rT = true := by
  apply (mock_filters_tried_before_unconditional mC1 rT).2.2.1 (1, eFil)
  · have he : (candidates mC1 rT).filter (fun p => p.2.filter.isSome) = [(1, eFil)] := rfl
    rw [he]
    exact List.mem_cons_self _ _
  · rfl

/-- C2: an entry with a producer sequence of length L never exceeds L
calls: at L it is depleted and excluded from the candidate set, so
further matching requests are never routed to it and, with no candidate
at all, get a 404; an entry with no producer sequence and no budget is
never depleted. -/
theorem mock_producer_sequence_depletion (m : Mock) (r : Request) (i : Nat)
    (v : MockResponse) :
    (v.callbacks = [] → v.times = none → v.isDepleted = false) ∧
    (v.callbacks ≠ [] → v.callbacks.length ≤ v.callCount → v.isDepleted = true) ∧
    (∀ p ∈ candidates m r, p.2.isDepleted = false) ∧
    (m.mockResponses[i]? = some v → v.isDepleted = true →
      (∀ q, selectEntry m r = some q → q.1 ≠ i) ∧
      (m.ServeHTTP r).state.mockResponses[i]? = some v) ∧
    (m.mockResponses[i]? = some v → v.callbacks ≠ [] →
      v.callCount ≤ v.callbacks.length →
      ∃ v', (m.ServeHTTP r).state.mockResponses[i]? = some v' ∧
        v'.callbacks = v.callbacks ∧ v'.callCount ≤ v.callbacks.length) ∧
    (selectEntry m r = none → (m.ServeHTTP r).response.statusWritten = some 404) := by
  refine ⟨?_, depleted_of_callbacks_exhausted v, ?_,
    fun hget hdep => depleted_not_selected m r i v hget hdep, ?_, serve404 m r⟩
  · intro hcb ht
    unfold MockResponse.isDepleted MockResponse.budgetDepleted
    rw [ht, hcb]
    rfl
  · intro p hp
    exact (mem_candidates m r p hp).2.2.2
  · intro hget hne hle
    rcases selected_increment_at m r i v hget with h | ⟨h, _, hdep⟩
    · exact ⟨v, h, rfl, hle⟩
    · refine ⟨{ v with callCount := v.callCount + 1 }, h, rfl, ?_⟩
      exact Nat.succ_le_of_lt (callCount_lt_of_not_depleted v hdep hne)

/-- Witness for C2 at the depleted concrete state: a second matching
request is not routed to the exhausted entry; it gets a 404 and the
entry is untouched. -/
theorem mock_producer_sequence_depletion_witness :
    (mDep.ServeHTTP rT).state.mockResponses[0]? = some eDep ∧
    (mDep.ServeHTTP rT).response.statusWritten = some 404 := by
  have h := mock_producer_sequence_depletion mDep rT 0 eDep
  have hsel : selectEntry mDep rT = none := by rw [selectEntry_eq]; rfl
  exact ⟨(h.2.2.2.1 rfl rfl).2, h.2.2.2.2.2 hsel⟩

/-- C4: `Once` sets the call budget to 1 and `Times n` to n, the later
call winning; an entry at its budget is never selected — its state is
untouched and a request with no other candidate gets a 404 — and a
dispatch never pushes a call count past the budget. -/
theorem mock_once_times_budget (m : Mock) (r : Request) (mr v : MockResponse)
    (i n : Nat) :
    (mr.Once.times = some 1) ∧
    ((mr.Times n).times = some n) ∧
    ((mr.Once.Times n).times = some n) ∧
    (((mr.Times n).Once).times = some 1) ∧
    (m.mockResponses[i]? = some v → v.times = some n → n ≤ v.callCount →
      (∀ q, selectEntry m r = some q → q.1 ≠ i) ∧
      (m.ServeHTTP r).state.mockResponses[i]? = some v ∧
      (selectEntry m r = none → (m.ServeHTTP r).response.statusWritten = some 404)) ∧
    (m.mockResponses[i]? = some v → v.times = some n → v.callCount ≤ n →
      ∃ v', (m.ServeHTTP r).state.mockResponses[i]? = some v' ∧ v'.callCount ≤ n ∧
        v'.times = v.times) := by
  refine ⟨rfl, rfl, rfl, rfl, ?_, ?_⟩
  · intro hget ht hc
    have hdep := depleted_of_budget_reached v n ht hc
    obtain ⟨h1, h2⟩ := depleted_not_selected m r i v hget hdep
    exact ⟨h1, h2, serve404 m r⟩
  · intro hget ht hle
    rcases selected_increment_at m r i v hget with h | ⟨h, _, hdep⟩
    · exact ⟨v, h, hle, rfl⟩
    · refine ⟨{ v with callCount := v.callCount + 1 }, h, ?_, rfl⟩
      exact Nat.succ_le_of_lt (callCount_lt_budget_of_not_depleted v n hdep ht)

/-- An entry at its call budget of 1 (one successful call already
counted). -/
def eBud : MockResponse := { resp := "once", path := "/t", times := some 1, callCount := 1 }

/-- Registry for the C4 witness. -/
def mBud : Mock := { mockResponses := [eBud] }

/-- Witness for C4 at a concrete state: the entry at its budget is left
untouched and the request, having no other candidate, gets a 404. -/
theorem mock_once_times_budget_witness :
    (mBud.ServeHTTP rT).state.mockResponses[0]? = some eBud ∧
    (mBud.ServeHTTP rT).response.statusWritten = some 404 := by
  have h := (mock_once_times_budget mBud rT eBud eBud 0 1).2.2.2.2.1 rfl rfl
    (by decide)
  have hsel : selectEntry mBud rT = none := by rw [selectEntry_eq]; rfl
  exact ⟨h.2.1, h.2.2 hsel⟩

/-- C5: on a hit the dispatcher applies the entry's headers, increments
its call count, then: a custom responder fully owns the response;
otherwise with per-call producers the producer at the pre-increment
call count supplies the status — written only when non-zero, with 200
recorded by default — and the fixed body is written; with no producers
the status defaults to 200 and the fixed body is written. -/
theorem mock_dispatch_selected_behavior (m : Mock) (r : Request) (i : Nat)
    (v : MockResponse) :
    selectEntry m r = some (i, v) →
      ((m.ServeHTTP r).state.mockResponses =
        m.mockResponses.set i { v with callCount := v.callCount + 1 }) ∧
      (∀ f, v.responder = some f →
        (m.ServeHTTP r).response = f (applyHeaders v.headers) r) ∧
      (v.responder = none → v.callbacks ≠ [] →
        ∃ cb, v.callbacks[v.callCount]? = some cb ∧
          (m.ServeHTTP r).response.statusWritten =
            some (if cb r ≠ 0 then cb r else 200) ∧
          (m.ServeHTTP r).response.body = v.resp ∧
          (m.ServeHTTP r).response.headers = (applyHeaders v.headers).headers) ∧
      (v.responder = none → v.callbacks = [] →
        (m.ServeHTTP r).response.statusWritten = some 200 ∧
        (m.ServeHTTP r).response.body = v.resp ∧
        (m.ServeHTTP r).response.headers = (applyHeaders v.headers).headers) := by
  intro h
  obtain ⟨hget, hpath, hmeth, hdep, hacc⟩ := selectEntry_some m r (i, v) h
  refine ⟨by rw [(serveHTTP_of_some m r i v h).1],
    fun f hf => serveHTTP_responder m r i v f h hf, ?_, ?_⟩
  · intro hres hne
    have hlt : v.callCount < v.callbacks.length := callCount_lt_of_not_depleted v hdep hne
    have hlen : 0 < v.callbacks.length := Nat.lt_of_le_of_lt (Nat.zero_le _) hlt
    refine ⟨v.callbacks.get ⟨v.callCount, hlt⟩, List.getElem?_eq_getElem hlt, ?_⟩
    have hstat : producedStatus v r = (v.callbacks.get ⟨v.callCount, hlt⟩) r := by
      unfold producedStatus
      rw [if_pos hlen, List.getElem?_eq_getElem hlt]
      rfl
    have hrespw := serveHTTP_plain m r i v h hres
    rw [hstat] at hrespw
    by_cases hz : (v.callbacks.get ⟨v.callCount, hlt⟩) r = 0
    · rw [if_neg (fun hcon => hcon hz)] at hrespw
      obtain ⟨w1, w2, w3⟩ :=
        write_of_none (applyHeaders v.headers) v.resp (applyHeaders_statusWritten _)
      refine ⟨?_, ?_, ?_⟩
      · rw [hrespw, w1, if_neg (fun hcon => hcon hz)]
      · rw [hrespw, w2, applyHeaders_body]
        exact String.empty_append _
      · rw [hrespw, w3]
    · rw [if_pos hz] at hrespw
      rw [writeHeader_of_none (applyHeaders v.headers) _ (applyHeaders_statusWritten _)]
        at hrespw
      obtain ⟨w1, w2, w3⟩ := write_of_some
        { applyHeaders v.headers with statusWritten := some ((v.callbacks.get ⟨v.callCount, hlt⟩) r) }
        v.resp _ rfl
      refine ⟨?_, ?_, ?_⟩
      · rw [hrespw, w1, if_pos hz]
      · rw [hrespw, w2]
        show (applyHeaders v.headers).body ++ v.resp = v.resp
        rw [applyHeaders_body]
        exact String.empty_append _
      · rw [hrespw, w3]
  · intro hres hcb
    have hstat : producedStatus v r = 0 := by
      unfold producedStatus
      rw [hcb]
      rfl
    have hrespw := serveHTTP_plain m r i v h hres
    rw [hstat, if_neg (fun hcon => hcon rfl)] at hrespw
    obtain ⟨w1, w2, w3⟩ :=
      write_of_none (applyHeaders v.headers) v.resp (applyHeaders_statusWritten _)
    refine ⟨by rw [hrespw, w1], ?_, by rw [hrespw, w3]⟩
    rw [hrespw, w2, applyHeaders_body]
    exact String.empty_append _

/-- An entry with one producer returning 202, not yet called. -/
def eCb : MockResponse := { resp := "x", path := "/t", callbacks := [fun _ => (202 : Int)] }

/-- Registry for the C5 witness. -/
def mC5 : Mock := { mockResponses := [eCb] }

/-- Witness for C5 at a concrete hit: the producer's 202 is written,
the fixed body follows, and the call count is incremented. -/
theorem mock_dispatch_selected_behavior_witness :
    (mC5.ServeHTTP rT).response.statusWritten = some 202 ∧
    (mC5.ServeHTTP rT).response.body = "x" ∧
    (mC5.ServeHTTP rT).state.mockResponses = [{ eCb with callCount := 1 }] := by
  have hsel : selectEntry mC5 rT = some (0, eCb) := by rw [selectEntry_eq]; rfl
  have h := mock_dispatch_selected_behavior mC5 rT 0 eCb hsel
  obtain ⟨cb, hcb, hstat, hbody, _⟩ := h.2.2.1 rfl (List.cons_ne_nil _ _)
  have hc : cb = fun _ => (202 : Int) := by
    have he : eCb.callbacks[eCb.callCount]? = some (fun _ => (202 : Int)) := rfl
    exact Option.some.inj (hcb.symm.trans he)
  subst hc
  refine ⟨by rw [hstat]; rfl, by rw [hbody]; rfl, by rw [h.1]; rfl⟩

/-- C3: `AssertCallCount` sums the call counts over all entries sharing
the method and path, marks all of them asserted, and fails exactly when
the observed sum is 0 — then reporting the "never called" message, even
when entries exist — or when the sum differs from the expectation. -/
theorem mock_assertCallCount_spec (m : Mock) (method path : String) (expected : Int) :
    ((m.AssertCallCount method path expected).2 ≠ [] ↔
      (callCountSum m method path = 0 ∨ (callCountSum m method path : Int) ≠ expected)) ∧
    (callCountSum m method path = 0 →
      (m.AssertCallCount method path expected).2 = [neverCalledMsg method path]) ∧
    (∀ mr ∈ (m.AssertCallCount method path expected).1.mockResponses,
      mr.path = path → mr.method = method → mr.asserted = true) := by
  refine ⟨?_, ?_, assertCallCount_marks m method path expected⟩
  · rw [assertCallCount_failures]
    by_cases h0 : callCountSum m method path = 0
    · simp [h0]
    · by_cases he : (callCountSum m method path : Int) = expected
      · simp [h0, he]
      · simp [h0, he]
  · intro h0
    rw [assertCallCount_failures, if_pos h0]

/-- An entry for /t already called twice. -/
def eC3 : MockResponse := { resp := "ok", path := "/t", callCount := 2 }

/-- Registry for the C3 witness. -/
def mC3 : Mock := { mockResponses := [eC3] }

/-- Witness for C3 at a concrete state: asserting the true sum passes,
asserting a different sum fails, and the entry ends up asserted. -/
theorem mock_assertCallCount_spec_witness :
    (mC3.AssertCallCount "GET" "/t" 2).2 = [] ∧
    (mC3.AssertCallCount "GET" "/t" 3).2 ≠ [] ∧
    { eC3 with asserted := true }.asserted = true := by
  refine ⟨?_, ?_, ?_⟩
  · by_contra hne
    rcases (mock_assertCallCount_spec mC3 "GET" "/t" 2).1.mp hne with h' | h' <;>
      revert h' <;> decide
  · exact (mock_assertCallCount_spec mC3 "GET" "/t" 3).1.mpr (Or.inr (by decide))
  · have hmem : { eC3 with asserted := true } ∈
        (mC3.AssertCallCount "GET" "/t" 3).1.mockResponses := by
      have he : (mC3.AssertCallCount "GET" "/t" 3).1.mockResponses =
          [{ eC3 with asserted := true }] := rfl
      rw [he]
      exact List.mem_cons_self _ _
    exact (mock_assertCallCount_spec mC3 "GET" "/t" 3).2.2 _ hmem rfl rfl

/-- C9: `AssertCallCount` marks every entry sharing the key asserted on
all of its paths — passing or failing — so afterwards those entries
contribute no failure to `AssertCallCountAsserted` and no failure to
`AssertMocksCalled`, even with call count 0: both produce exactly the
failures of the registry restricted to the non-matching entries. -/
theorem mock_assert_marks_suppresses_failures (m : Mock) (method path : String)
    (expected : Int) :
    (∀ mr ∈ (m.AssertCallCount method path expected).1.mockResponses,
      mr.path = path → mr.method = method → mr.asserted = true) ∧
    ((m.AssertCallCount method path expected).1.AssertCallCountAsserted =
      Mock.AssertCallCountAsserted
        { mockResponses := (m.AssertCallCount method path expected).1.mockResponses.filter
            (fun mr => !(mr.path == path && mr.method == method))
          unmockedRequests := (m.AssertCallCount method path expected).1.unmockedRequests }) ∧
    ((m.AssertCallCount method path expected).1.AssertMocksCalled =
      Mock.AssertMocksCalled
        { mockResponses := (m.AssertCallCount method path expected).1.mockResponses.filter
            (fun mr => !(mr.path == path && mr.method == method))
          unmockedRequests := (m.AssertCallCount method path expected).1.unmockedRequests }) := by
  refine ⟨assertCallCount_marks m method path expected, ?_, ?_⟩
  · unfold Mock.AssertCallCountAsserted
    apply filterMap_restrict
    intro a ha hpa
    have h1 : a.path = path ∧ a.method = method := by
      simpa using hpa
    have h2 := assertCallCount_marks m method path expected a ha h1.1 h1.2
    rw [if_pos h2]
  · unfold Mock.AssertMocksCalled
    apply filterMap_restrict
    intro a ha hpa
    have h1 : a.path = path ∧ a.method = method := by
      simpa using hpa
    have h2 := assertCallCount_marks m method path expected a ha h1.1 h1.2
    rw [if_neg ?_]
    rw [h2]
    simp

/-- A never-called entry for /t. -/
def eC9 : MockResponse := { resp := "ok", path := "/t" }

/-- Registry for the C9 witness. -/
def mC9 : Mock := { mockResponses := [eC9] }

/-- Witness for C9 at a concrete state: even after a failing
`AssertCallCount` (sum 0), the never-called entry produces no failure
from `AssertCallCountAsserted` nor from `AssertMocksCalled`. -/
theorem mock_assert_marks_suppresses_failures_witness :
    (mC9.AssertCallCount "GET" "/t" 1).1.AssertCallCountAsserted = [] ∧
    (mC9.AssertCallCount "GET" "/t" 1).1.AssertMocksCalled = [] := by
  have h := mock_assert_marks_suppresses_failures mC9 "GET" "/t" 1
  exact ⟨by rw [h.2.1]; rfl, by rw [h.2.2]; rfl⟩
